import Mathlib

/-!
Shallow embedding of the agent-orchestration core of the computer-use demo
(`computer_use_demo/loop.py` and `computer_use_demo/tools/subagent.py`):
the sampling-loop state machine, its image-retention filter, the heartbeat
tracker, and the sub-agent spawner's call/poll protocol, together with
theorems about the behaviour of these functions.
-/

namespace CUD

/-- A content item inside a `tool_result` block.  Only the image / non-image
distinction is observable to the retention filter in `loop.py`, so text and
other dict items are collapsed into `other`. -/
inductive Item : Type
  | image : Item
  | other : Item
deriving DecidableEq

/-- A content block of a conversation message, mirroring the block dicts
built in `loop.py`: text blocks, `tool_use` blocks and `tool_result`
blocks. -/
inductive Block : Type
  | text (s : String) : Block
  | toolUse (id name : String) : Block
  | toolResult (content : List Item) (isError : Bool) (toolUseId : String) : Block
deriving DecidableEq

/-- A conversation message: a role string plus content blocks.  Messages
whose Python `content` is a plain string are represented with a single
`Block.text` (the filter only looks at `tool_result` blocks, which can only
occur in list-valued content). -/
structure Msg : Type where
  role : String
  content : List Block
deriving DecidableEq

/-- Number of image items in one `tool_result` content list. -/
def countImagesItems : List Item → Nat
  | [] => 0
  | Item.image :: rest => countImagesItems rest + 1
  | Item.other :: rest => countImagesItems rest

/-- Number of images contributed by one block (`tool_result` blocks only,
as in the `total_images` comprehension of
`_maybe_filter_to_n_most_recent_images`). -/
def countImagesBlock : Block → Nat
  | Block.toolResult c _ _ => countImagesItems c
  | _ => 0

/-- Number of tool-result images in one message. -/
def countImagesMsg (m : Msg) : Nat :=
  (m.content.map countImagesBlock).sum

/-- `total_images` of `_maybe_filter_to_n_most_recent_images`: all images in
`tool_result` blocks across the message list. -/
def totalImages (msgs : List Msg) : Nat :=
  (msgs.map countImagesMsg).sum

/-- Inner removal pass over one `tool_result` content list, threading the
mutable `images_to_remove` counter: an image is dropped while the counter is
positive (decrementing it); everything else is kept. -/
def filterItems : Int → List Item → Int × List Item
  | r, [] => (r, [])
  | r, Item.image :: rest =>
      if 0 < r then filterItems (r - 1) rest
      else
        let p := filterItems r rest
        (p.1, Item.image :: p.2)
  | r, Item.other :: rest =>
      let p := filterItems r rest
      (p.1, Item.other :: p.2)

/-- Removal pass over one block: only `tool_result` blocks are rewritten. -/
def filterBlock : Int → Block → Int × Block
  | r, Block.toolResult c e tid =>
      let p := filterItems r c
      (p.1, Block.toolResult p.2 e tid)
  | r, b => (r, b)

/-- Removal pass over a message's content blocks, in order. -/
def filterBlocks : Int → List Block → Int × List Block
  | r, [] => (r, [])
  | r, b :: rest =>
      let p := filterBlock r b
      let q := filterBlocks p.1 rest
      (q.1, p.2 :: q.2)

/-- Removal pass over one message. -/
def filterMsg (r : Int) (m : Msg) : Int × Msg :=
  let p := filterBlocks r m.content
  (p.1, ⟨m.role, p.2⟩)

/-- Removal pass over the whole message list, in order (the Python loop
iterates the flattened `tool_result_blocks` list in exactly this order). -/
def filterMsgs : Int → List Msg → Int × List Msg
  | r, [] => (r, [])
  | r, m :: rest =>
      let p := filterMsg r m
      let q := filterMsgs p.1 rest
      (q.1, p.2 :: q.2)

/-- `_maybe_filter_to_n_most_recent_images` from `loop.py`.  Returns `none`
exactly when the Python code raises `ZeroDivisionError`, i.e. when
`min_removal_threshold = 0` (the expression
`images_to_remove % min_removal_threshold` is evaluated unconditionally).
For a positive threshold, Lean's Euclidean `%` on `Int` agrees with
Python's `%`. -/
def maybe_filter_to_n_most_recent_images (msgs : List Msg)
    (images_to_keep : Int) (min_removal_threshold : Int) : Option (List Msg) :=
  if min_removal_threshold = 0 then none
  else
    let total : Int := totalImages msgs
    let r0 : Int := total - images_to_keep
    let r1 : Int := r0 - r0 % min_removal_threshold
    some (filterMsgs r1 msgs).2

/-- Demo conversation for concrete evaluation: a plain user message followed
by a tool-result message carrying 12 screenshot images. -/
def demoMsgs : List Msg :=
  [⟨"user", [Block.text "task"]⟩,
   ⟨"user", [Block.toolResult (List.replicate 12 Item.image) false "tu1"]⟩]

/-- `demoMsgs` after the retention filter with keep 5 and threshold 4:
the 4 oldest images removed, 8 images left. -/
def demoFiltered : List Msg :=
  [⟨"user", [Block.text "task"]⟩,
   ⟨"user", [Block.toolResult (List.replicate 8 Item.image) false "tu1"]⟩]

/-- The image-filter invocation computed by one `sampling_loop` iteration:
`image_truncation_threshold = only_n_most_recent_images or 0`; when prompt
caching is enabled `only_n_most_recent_images` is reassigned to 90; the
filter is then invoked iff `only_n_most_recent_images` is truthy, with
arguments `(only_n_most_recent_images, image_truncation_threshold)`.
Returns the `(images_to_keep, min_removal_threshold)` pair the filter is
called with, or `none` when the call is skipped. -/
def imageFilterInvocation (only_n_most_recent_images : Option Int)
    (enable_prompt_caching : Bool) : Option (Int × Int) :=
  let thr : Int := only_n_most_recent_images.getD 0
  let onlyN : Option Int :=
    if enable_prompt_caching then some 90 else only_n_most_recent_images
  match onlyN with
  | none => none
  | some k => if k = 0 then none else some (k, thr)

/-- State of `HeartbeatTracker` from `loop.py`: the configured minimum
interval (default 30 s) and the clock time of the last issued beat.  Clock
times (`time.time()`) are modelled as integers. -/
structure HeartbeatTracker where
  min_interval : Int
  last_beat : Int
deriving DecidableEq

/-- The raw database UPDATE inside `HeartbeatTracker._update`:
`ok = false` models the write raising (store unreachable). -/
def heartbeatDbWrite (ok : Bool) : Except String Unit :=
  if ok then Except.ok () else Except.error "Heartbeat failed"

/-- `HeartbeatTracker._update`: its whole body is wrapped in try/except, so
a failing write is swallowed (only logged) and `_update` returns
normally. -/
def heartbeat_update (ok : Bool) : Unit :=
  match heartbeatDbWrite ok with
  | Except.ok _ => ()
  | Except.error _ => ()

/-- `HeartbeatTracker.beat` called at clock time `now`: a liveness write is
issued only when at least `min_interval` has elapsed since `last_beat`, and
then `last_beat` is advanced to `now`.  `writeOk` is whether the underlying
write succeeds; since `_update` swallows failures, it cannot influence the
result.  Returns the new state and whether a write was issued. -/
def beat (hb : HeartbeatTracker) (now : Int) (writeOk : Bool) :
    HeartbeatTracker × Bool :=
  if hb.min_interval ≤ now - hb.last_beat then
    let _ := heartbeat_update writeOk
    ({ hb with last_beat := now }, true)
  else (hb, false)

/-- A sequence of `beat` calls, each a pair of clock time and write success;
returns the final tracker state and the timestamps of the issued liveness
writes, in order. -/
def beatRun (hb : HeartbeatTracker) : List (Int × Bool) → HeartbeatTracker × List Int
  | [] => (hb, [])
  | (t, ok) :: rest =>
      let p := beat hb t ok
      let q := beatRun p.1 rest
      (q.1, (if p.2 then [t] else []) ++ q.2)

/-- The exact sentinel string compared against `result.output` in
`loop.py` and returned by `SubAgentTool`. -/
def CANCEL_SENTINEL : String := "CANCELLED_BY_USER"

/-- A tool result as consumed by the loop (`ToolResult` of `tools/base.py`,
seen through the fields the loop reads): textual output, error text, an
optional image payload and an optional system note. -/
structure ToolRes where
  output : Option String := none
  error : Option String := none
  base64_image : Bool := false
  system : Option String := none
deriving DecidableEq, Inhabited

/-- `_make_api_tool_result` from `loop.py`: an error result becomes an
error-flagged `tool_result` (whose content is the error string, which the
image filter neither counts nor rewrites — represented by the empty item
list); otherwise the content holds a text item when there is output and an
image item when there is an image payload. -/
def make_api_tool_result (r : ToolRes) (tool_use_id : String) : Block :=
  if r.error.isSome then
    Block.toolResult [] true tool_use_id
  else
    Block.toolResult
      ((if r.output.isSome then [Item.other] else [])
        ++ (if r.base64_image then [Item.image] else []))
      false tool_use_id

/-- Outcome of the fresh per-iteration `SELECT status` on the conversation
row: the status string, or `fail` when the read raises. -/
inductive StatusRead : Type
  | ok (s : String)
  | fail
deriving DecidableEq

/-- The environment one loop iteration observes: the status read, the model
response's content blocks (successful API call; the structured API-error
returns are not exercised by any claim), and the oracle of tool-execution
results consumed in order by the `tool_use` blocks (a tool exception is
already represented as an error-valued result, as the loop converts it). -/
structure IterEnv where
  statusRead : StatusRead
  response : List Block
  toolResults : List ToolRes
deriving DecidableEq

/-- Fixed configuration of the loop: whether prompt caching is enabled
(true exactly for the Anthropic provider). -/
structure LoopCfg where
  enable_prompt_caching : Bool
deriving DecidableEq

/-- The loop's mutable local state: the message list, the
`prompted_for_log` flag, the current `only_n_most_recent_images` value
(reassigned to 90 once prompt caching runs) and the `final_status`
variable consumed by the `finally` block. -/
structure LoopState where
  messages : List Msg
  prompted_for_log : Bool
  only_n_most_recent_images : Option Int
  final_status : String
deriving DecidableEq

/-- Observable effects of one iteration: the `update_status` writes issued
(status, message), whether the model API was called, and whether
`mark_completed` was called. -/
structure IterLog where
  statusWrites : List (String × String)
  modelCalled : Bool
  markedCompleted : Bool
deriving DecidableEq

/-- Result of one iteration of the `while True` body: the loop exited
(break or return), continued to the next iteration, or an exception escaped
the body uncaught (the ZeroDivisionError of the image filter). -/
inductive IterResult : Type
  | exited (st : LoopState) (log : IterLog)
  | continued (st : LoopState) (log : IterLog)
  | crashed (st : LoopState) (log : IterLog)
deriving DecidableEq

/-- The image-truncation stage of one iteration:
`image_truncation_threshold = only_n_most_recent_images or 0`; under prompt
caching `only_n_most_recent_images = 90`; the filter runs iff
`only_n_most_recent_images` is truthy.  Returns the new
`only_n_most_recent_images` together with the (possibly filtered) messages,
`none` standing for the filter's ZeroDivisionError. -/
def imageStage (cfg : LoopCfg) (onlyN : Option Int) (msgs : List Msg) :
    Option Int × Option (List Msg) :=
  let thr : Int := onlyN.getD 0
  let onlyN' : Option Int :=
    if cfg.enable_prompt_caching then some 90 else onlyN
  match onlyN' with
  | none => (none, some msgs)
  | some k =>
      if k = 0 then (some k, some msgs)
      else (some k, maybe_filter_to_n_most_recent_images msgs k thr)

/-- The `for content_block in response_params` loop: each `tool_use` block
consumes the next oracle tool result; a result whose output equals the
cancellation sentinel executes `break` — which leaves only this inner
for-loop, dropping that result — while other results are appended via
`_make_api_tool_result`.  Returns the accumulated `tool_result` blocks and
whether the sentinel was seen. -/
def processBlocks : List Block → List ToolRes → List Block × Bool
  | [], _ => ([], false)
  | Block.toolUse tid _ :: rest, results =>
      let r := results.headD default
      if r.output = some CANCEL_SENTINEL then ([], true)
      else
        let p := processBlocks rest results.tail
        (make_api_tool_result r tid :: p.1, p.2)
  | _ :: rest, results => processBlocks rest results

/-- The synthetic "finalize your memory" user message injected on the
first zero-tool iteration (`LOG_COMPLETION_MESSAGE`; its timestamped text
is abstracted to a marker). -/
def LOG_PROMPT_MSG : Msg := ⟨"user", [Block.text "log-completion-request"]⟩

/-- One iteration of the `sampling_loop` `while True` body: the fresh
status read with its stopping/pausing/failure gates; the image-truncation
stage; the model call appending the assistant message; the block loop with
the sentinel `break`; then the zero-tool bookkeeping (first time: inject
the log prompt and continue; second time: complete and return) or the
appending of the aggregated tool results as the next user message.
Best-effort stores of individual messages and API request/response logging
have no observable effect on this state and are omitted. -/
def iteration (cfg : LoopCfg) (st : LoopState) (env : IterEnv) : IterResult :=
  match env.statusRead with
  | StatusRead.fail =>
      IterResult.exited { st with final_status := "failed" }
        ⟨[("failed", "Internal error during status check")], false, false⟩
  | StatusRead.ok s =>
    if s = "stopping" then
      IterResult.exited { st with final_status := "cancelled" }
        ⟨[("cancelled", "Task cancelled by user.")], false, false⟩
    else if s = "pausing" then
      IterResult.exited { st with final_status := "paused" }
        ⟨[("paused", "Task paused by user.")], false, false⟩
    else
      let stage := imageStage cfg st.only_n_most_recent_images st.messages
      match stage.2 with
      | none =>
          IterResult.crashed
            { st with only_n_most_recent_images := stage.1 } ⟨[], false, false⟩
      | some msgs1 =>
          let msgs2 := msgs1 ++ [⟨"assistant", env.response⟩]
          let p := processBlocks env.response env.toolResults
          let st1 : LoopState :=
            { messages := msgs2
              prompted_for_log := st.prompted_for_log
              only_n_most_recent_images := stage.1
              final_status := if p.2 then "cancelled" else st.final_status }
          if p.1.isEmpty then
            if st.prompted_for_log then
              IterResult.exited { st1 with final_status := "completed" }
                ⟨[("completed",
                    "Task finished successfully without further tool use.")],
                  true, true⟩
            else
              IterResult.continued
                { st1 with
                    messages := msgs2 ++ [LOG_PROMPT_MSG]
                    prompted_for_log := true }
                ⟨[], true, false⟩
          else
            IterResult.continued
              { st1 with messages := msgs2 ++ [⟨"user", p.1⟩] }
              ⟨[], true, false⟩

/-- Outcome of running the loop against a finite script of iteration
environments: exited normally, crashed (uncaught exception), or still
running when the script ran out.  Carries the per-iteration logs in
order. -/
inductive RunResult : Type
  | exited (st : LoopState) (trace : List IterLog)
  | crashed (st : LoopState) (trace : List IterLog)
  | running (st : LoopState) (trace : List IterLog)
deriving DecidableEq

/-- Run `iteration` over a script of environments, one per iteration. -/
def run (cfg : LoopCfg) : LoopState → List IterEnv → RunResult
  | st, [] => RunResult.running st []
  | st, env :: rest =>
      match iteration cfg st env with
      | IterResult.exited st' log => RunResult.exited st' [log]
      | IterResult.crashed st' log => RunResult.crashed st' [log]
      | IterResult.continued st' log =>
          match run cfg st' rest with
          | RunResult.exited st2 tr => RunResult.exited st2 (log :: tr)
          | RunResult.crashed st2 tr => RunResult.crashed st2 (log :: tr)
          | RunResult.running st2 tr => RunResult.running st2 (log :: tr)

/-- Number of model API calls recorded in a trace. -/
def modelCallCount (trace : List IterLog) : Nat :=
  (trace.filter (fun l => l.modelCalled)).length

/-- Demo loop configuration: non-Anthropic provider, prompt caching off. -/
def cfgNoCache : LoopCfg := ⟨false⟩

/-- Demo initial loop state: one stored user message, log prompt not yet
issued, no image truncation requested, status variable "running". -/
def st0 : LoopState :=
  ⟨[⟨"user", [Block.text "do the task"]⟩], false, none, "running"⟩

/-- Iteration environment in which the parent's persisted status is already
"cancelled" (set out of band) and the model response's only block is a
`spawn_subagent` tool use whose result is the cancellation sentinel. -/
def envSentinel : IterEnv :=
  ⟨StatusRead.ok "cancelled",
   [Block.toolUse "toolu_01" "spawn_subagent"],
   [{ output := some CANCEL_SENTINEL,
      system := some "The user cancelled the operation." }]⟩

/-- A following iteration: status still "cancelled" (neither "stopping" nor
"pausing", so the gate does not fire), and the model answers with plain
text. -/
def envAfterSentinel : IterEnv :=
  ⟨StatusRead.ok "cancelled", [Block.text "Wrapped up."], []⟩

/-- State after the sentinel iteration: the `break` left only the inner
block loop, so the iteration fell through to the zero-tool branch, injected
the log prompt and continued. -/
def stAfterSentinel : LoopState :=
  ⟨[⟨"user", [Block.text "do the task"]⟩,
    ⟨"assistant", [Block.toolUse "toolu_01" "spawn_subagent"]⟩,
    LOG_PROMPT_MSG], true, none, "cancelled"⟩

/-- Final state of the two-iteration run after the sentinel: the loop went
on to another model call and returned as "completed". -/
def stC1Final : LoopState :=
  ⟨[⟨"user", [Block.text "do the task"]⟩,
    ⟨"assistant", [Block.toolUse "toolu_01" "spawn_subagent"]⟩,
    LOG_PROMPT_MSG,
    ⟨"assistant", [Block.text "Wrapped up."]⟩], true, none, "completed"⟩

/-- Outcome of one HTTP request as the sub-agent tool observes it: the
request raised (connection error / timeout), returned a non-success
response, or succeeded with a value. -/
inductive HttpRead (α : Type) : Type
  | raised
  | errorResp
  | ok (a : α)
deriving DecidableEq

/-- What one iteration of `_poll_for_completion` observes: the GET of the
parent's own conversation (status string on success) and the GET of the
child conversation (status and status_message on success). -/
structure PollObs where
  parent : HttpRead String
  child : HttpRead (String × Option String)
deriving DecidableEq

/-- Result of one poll-loop iteration: return a value (with the flag
recording whether `_cleanup_session` was issued for the child), or sleep
5 s and poll again. -/
inductive PollStep : Type
  | ret (result : String) (childCancelled : Bool)
  | again
deriving DecidableEq

/-- The child-conversation status check inside `_poll_for_completion`:
"completed" yields its status message (or the default), "failed" and
"cancelled" yield a synthesized message carrying that status, anything
else (or a failed read) polls again. -/
def childStatusCheck : HttpRead (String × Option String) → PollStep
  | HttpRead.raised => PollStep.again
  | HttpRead.errorResp => PollStep.again
  | HttpRead.ok (s, m) =>
      if s = "completed" then
        PollStep.ret (m.getD "Task completed successfully.") false
      else if s = "failed" ∨ s = "cancelled" then
        PollStep.ret ("Sub-agent " ++ s ++ ": " ++ m.getD "Unknown error")
          false
      else PollStep.again

/-- One iteration of the `while True` body of `_poll_for_completion`: when
`my_conversation_id` is set, the parent's own status is read first; a
parent status of "stopping", "cancelled" or "paused" cancels the child
session (best-effort) and returns the cancellation sentinel, skipping the
child check entirely.  An exception during the parent read aborts the whole
try-block (the child is not checked this iteration). -/
def poll_iteration (my_conversation_id : Option Nat) (obs : PollObs) :
    PollStep :=
  match my_conversation_id with
  | some _ =>
    match obs.parent with
    | HttpRead.raised => PollStep.again
    | HttpRead.errorResp => childStatusCheck obs.child
    | HttpRead.ok s =>
        if s = "stopping" ∨ s = "cancelled" ∨ s = "paused" then
          PollStep.ret CANCEL_SENTINEL true
        else childStatusCheck obs.child
  | none => childStatusCheck obs.child

/-- `SubAgentTool._poll_for_completion` run against a finite script of poll
observations.  `timeout_minutes` is received (and `timeout_seconds` is
computed from it in the source) but the loop is `while True` — the bounded
check is commented out — so the budget is never consulted and the trailing
`return None` timeout indication is unreachable; `none` here means the
script ran out with the loop still polling. -/
def poll_for_completion (timeout_minutes : Int)
    (my_conversation_id : Option Nat) :
    List PollObs → Option (String × Bool)
  | [] => none
  | obs :: rest =>
      match poll_iteration my_conversation_id obs with
      | PollStep.ret r c => some (r, c)
      | PollStep.again =>
          poll_for_completion timeout_minutes my_conversation_id rest

/-- The broker's response to `POST /sessions`. -/
inductive CreateResp : Type
  | raised
  | conflict
  | otherError (code : Nat)
  | created
deriving DecidableEq

/-- The child agent's response to the task dispatch `POST /message`. -/
inductive DispatchResp : Type
  | raised
  | errorResp (t : String)
  | accepted (child_conversation_id : Nat)
deriving DecidableEq

/-- Environment one `SubAgentTool.__call__` invocation observes: session
creation, pod readiness, API health, task dispatch, and the poll-loop
script. -/
structure CallEnv where
  createResp : CreateResp
  podReady : Bool
  apiHealthy : Bool
  dispatch : DispatchResp
  pollScript : List PollObs
deriving DecidableEq

/-- Observable outcome of `SubAgentTool.__call__`: the returned
`ToolResult` and the spawn record's final status (`none` when no record
was ever created). -/
structure CallOut where
  result : ToolRes
  spawnStatus : Option String
deriving DecidableEq

/-- The tool result `SubAgentTool.__call__` returns on the sentinel path:
exactly the string the parent loop compares against, plus the system
note. -/
def cancelRes : ToolRes :=
  { output := some CANCEL_SENTINEL,
    system := some "The user cancelled the operation." }

/-- An `update_spawn` that sets a status: it only runs when the store is
present and a spawn record was created (`rec` is `some`). -/
def updateSpawnStatus (rec : Option String) (s : String) : Option String :=
  match rec with
  | some _ => some s
  | none => none

/-- `SubAgentTool.__call__`: create the spawn record (status "spawning")
when a store is attached; create the broker session (409 and other
non-201 responses return at once); wait for pod readiness and API health
and dispatch the task, marking the spawn failed and cleaning up the
session on each failure; record "running"; then either return immediately
(no wait) or run the completion poll.  A poll result equal to the
cancellation sentinel marks the spawn "cancelled" and propagates the exact
sentinel string as the tool output; any other poll result marks it
"completed".  In-flight exceptions are absorbed by the outer handlers,
which mark the spawn failed.  The source's timeout branch
(`final_result is None`) is unreachable because `_poll_for_completion`
never returns `None` (see `poll_never_times_out`); a `none` here means the
call is still blocked in the poll loop.  Result texts are abbreviated
except the sentinel, which is exact. -/
def subagent_call (hasStore : Bool) (my_conversation_id : Option Nat)
    (wait_for_completion cleanup_on_complete : Bool) (timeout_minutes : Int)
    (env : CallEnv) : Option CallOut :=
  let rec0 : Option String := if hasStore then some "spawning" else none
  match env.createResp with
  | CreateResp.raised =>
      some ⟨{ error := some "Sub-agent failed: session creation raised" },
        updateSpawnStatus rec0 "failed"⟩
  | CreateResp.conflict =>
      some ⟨{ error := some "session already exists" }, rec0⟩
  | CreateResp.otherError _ =>
      some ⟨{ error := some "Failed to create sub-agent session" }, rec0⟩
  | CreateResp.created =>
      if env.podReady = false then
        some ⟨{ error := some "pod failed to start within timeout" },
          updateSpawnStatus rec0 "failed"⟩
      else if env.apiHealthy = false then
        some ⟨{ error := some "API failed to become healthy" },
          updateSpawnStatus rec0 "failed"⟩
      else
        match env.dispatch with
        | DispatchResp.raised =>
            some ⟨{ error := some "Sub-agent failed: dispatch raised" },
              updateSpawnStatus rec0 "failed"⟩
        | DispatchResp.errorResp _ =>
            some ⟨{ error := some "Failed to send task to sub-agent" },
              updateSpawnStatus rec0 "failed"⟩
        | DispatchResp.accepted _ =>
            let rec1 := updateSpawnStatus rec0 "running"
            if wait_for_completion = false then
              some ⟨{ output := some "spawned and working" }, rec1⟩
            else
              match poll_for_completion timeout_minutes my_conversation_id
                  env.pollScript with
              | none => none
              | some (r, _) =>
                  if r = CANCEL_SENTINEL then
                    some ⟨cancelRes, updateSpawnStatus rec1 "cancelled"⟩
                  else
                    some ⟨{ output := some ("Sub-agent completed: " ++ r) },
                      updateSpawnStatus rec1 "completed"⟩

/-- Call environment in which the broker answers `POST /sessions` with a
409 conflict. -/
def envConflict : CallEnv :=
  ⟨CreateResp.conflict, true, true, DispatchResp.accepted 5, []⟩

/-- Call environment in which provisioning, health and dispatch succeed
and the child conversation completes on the first poll. -/
def envHappy : CallEnv :=
  ⟨CreateResp.created, true, true, DispatchResp.accepted 7,
   [⟨HttpRead.ok "running", HttpRead.ok ("completed", some "done")⟩]⟩

lemma filterItems_spec (r : Int) (c : List Item) :
    (filterItems r c).1 = r - (min r.toNat (countImagesItems c) : Int) ∧
    countImagesItems (filterItems r c).2
      = countImagesItems c - min r.toNat (countImagesItems c) := by
  induction c generalizing r with
  | nil => simp [filterItems, countImagesItems]
  | cons hd tl ih =>
    cases hd with
    | image =>
      by_cases hr : 0 < r
      · have h := ih (r - 1)
        simp only [filterItems, countImagesItems, if_pos hr]
        obtain ⟨h1, h2⟩ := h
        constructor
        · rw [h1]; omega
        · rw [h2]; omega
      · have h := ih r
        simp only [filterItems, countImagesItems, if_neg hr]
        obtain ⟨h1, h2⟩ := h
        constructor
        · rw [h1]; omega
        · rw [h2]; omega
    | other =>
      have h := ih r
      simp only [filterItems, countImagesItems]
      obtain ⟨h1, h2⟩ := h
      exact ⟨by rw [h1], by rw [h2]⟩

lemma filterBlock_spec (r : Int) (b : Block) :
    (filterBlock r b).1 = r - (min r.toNat (countImagesBlock b) : Int) ∧
    countImagesBlock (filterBlock r b).2
      = countImagesBlock b - min r.toNat (countImagesBlock b) := by
  cases b with
  | text s => simp [filterBlock, countImagesBlock]
  | toolUse i n => simp [filterBlock, countImagesBlock]
  | toolResult c e tid =>
    have h := filterItems_spec r c
    simp only [filterBlock, countImagesBlock]
    exact h

lemma filterBlocks_spec (r : Int) (bs : List Block) :
    (filterBlocks r bs).1
      = r - (min r.toNat ((bs.map countImagesBlock).sum) : Int) ∧
    ((filterBlocks r bs).2.map countImagesBlock).sum
      = (bs.map countImagesBlock).sum
          - min r.toNat ((bs.map countImagesBlock).sum) := by
  induction bs generalizing r with
  | nil => simp [filterBlocks]
  | cons hd tl ih =>
    obtain ⟨hb1, hb2⟩ := filterBlock_spec r hd
    obtain ⟨ht1, ht2⟩ := ih (filterBlock r hd).1
    simp only [filterBlocks, List.map_cons, List.sum_cons]
    constructor
    · rw [ht1, hb1]; omega
    · rw [ht2, hb2, hb1]; omega

lemma filterMsg_spec (r : Int) (m : Msg) :
    (filterMsg r m).1 = r - (min r.toNat (countImagesMsg m) : Int) ∧
    countImagesMsg (filterMsg r m).2
      = countImagesMsg m - min r.toNat (countImagesMsg m) := by
  have h := filterBlocks_spec r m.content
  simpa [filterMsg, countImagesMsg] using h

lemma filterMsgs_spec (r : Int) (msgs : List Msg) :
    (filterMsgs r msgs).1 = r - (min r.toNat (totalImages msgs) : Int) ∧
    totalImages (filterMsgs r msgs).2
      = totalImages msgs - min r.toNat (totalImages msgs) := by
  induction msgs generalizing r with
  | nil => simp [filterMsgs, totalImages]
  | cons hd tl ih =>
    obtain ⟨hm1, hm2⟩ := filterMsg_spec r hd
    obtain ⟨ht1, ht2⟩ := ih (filterMsg r hd).1
    simp only [filterMsgs, totalImages, List.map_cons, List.sum_cons]
    simp only [totalImages] at ht1 ht2
    constructor
    · rw [ht1, hm1]; omega
    · rw [ht2, hm2, hm1]
      simp only [countImagesMsg] at hm2 ⊢
      omega

lemma beatRun_spaced (iv : Int) (hpos : 0 < iv) :
    ∀ (calls : List (Int × Bool)) (lb : Int),
      List.Chain' (fun a b => a + iv ≤ b) (beatRun ⟨iv, lb⟩ calls).2 ∧
      ∀ w ∈ (beatRun ⟨iv, lb⟩ calls).2, lb + iv ≤ w := by
  intro calls
  induction calls with
  | nil => intro lb; simp [beatRun]
  | cons c rest ih =>
    intro lb
    obtain ⟨t, ok⟩ := c
    by_cases h : iv ≤ t - lb
    · have hrec := ih t
      simp only [beatRun, beat, if_pos h, if_true, List.singleton_append] at *
      refine ⟨?_, ?_⟩
      · rw [List.chain'_cons']
        refine ⟨?_, hrec.1⟩
        intro b hb
        exact hrec.2 b (List.mem_of_mem_head? hb)
      · intro w hw
        rcases List.mem_cons.mp hw with h1 | h2
        · omega
        · have := hrec.2 w h2
          omega
    · have hrec := ih lb
      simp only [beatRun, beat, if_neg h, if_false, List.nil_append] at *
      exact hrec

/-- C6: for every message list, keep-count `keep ≥ 0` and positive chunk
threshold, the image-retention filter succeeds and removes exactly
`max 0 (total - keep)` truncated down to the nearest lower multiple of the
threshold: the removed count equals that value, is divisible by the
threshold, and never exceeds `max 0 (total - keep)`. -/
theorem image_filter_removes_exact_chunked (msgs : List Msg) (keep thr : Int)
    (hthr : 0 < thr) (hkeep : 0 ≤ keep) :
    ∃ out, maybe_filter_to_n_most_recent_images msgs keep thr = some out ∧
      (totalImages msgs : Int) - (totalImages out : Int)
        = max 0 (((totalImages msgs : Int) - keep)
            - ((totalImages msgs : Int) - keep) % thr) ∧
      thr ∣ ((totalImages msgs : Int) - (totalImages out : Int)) ∧
      (totalImages msgs : Int) - (totalImages out : Int)
        ≤ max 0 ((totalImages msgs : Int) - keep) := by
  have hne : thr ≠ 0 := ne_of_gt hthr
  refine ⟨(filterMsgs (((totalImages msgs : Int) - keep)
      - ((totalImages msgs : Int) - keep) % thr) msgs).2, ?_, ?_⟩
  · simp only [maybe_filter_to_n_most_recent_images, if_neg hne]
  · obtain ⟨-, hcount⟩ := filterMsgs_spec
      (((totalImages msgs : Int) - keep)
        - ((totalImages msgs : Int) - keep) % thr) msgs
    have hmod : 0 ≤ ((totalImages msgs : Int) - keep) % thr :=
      Int.emod_nonneg _ hne
    have hde := Int.ediv_add_emod ((totalImages msgs : Int) - keep) thr
    have hEq : (totalImages msgs : Int)
        - (totalImages (filterMsgs (((totalImages msgs : Int) - keep)
            - ((totalImages msgs : Int) - keep) % thr) msgs).2 : Int)
        = max 0 (((totalImages msgs : Int) - keep)
            - ((totalImages msgs : Int) - keep) % thr) := by
      omega
    refine ⟨hEq, ?_, ?_⟩
    · rw [hEq]
      rcases le_or_lt (((totalImages msgs : Int) - keep)
          - ((totalImages msgs : Int) - keep) % thr) 0 with h | h
      · rw [max_eq_left h]
        exact dvd_zero thr
      · rw [max_eq_right h.le]
        exact ⟨((totalImages msgs : Int) - keep) / thr, by linarith⟩
    · rw [hEq]
      omega

/-- C6 witness: the spec scenario — 12 tool-result images, keep 5,
threshold 4 — removes 4 images and leaves 8. -/
theorem image_filter_removes_exact_chunked_witness :
    ((0:Int) < 4 ∧ (0:Int) ≤ 5 ∧
      (∃ out, maybe_filter_to_n_most_recent_images demoMsgs 5 4 = some out ∧
        (totalImages demoMsgs : Int) - (totalImages out : Int)
          = max 0 (((totalImages demoMsgs : Int) - 5)
              - ((totalImages demoMsgs : Int) - 5) % 4) ∧
        (4:Int) ∣ ((totalImages demoMsgs : Int) - (totalImages out : Int)) ∧
        (totalImages demoMsgs : Int) - (totalImages out : Int)
          ≤ max 0 ((totalImages demoMsgs : Int) - 5))) ∧
    totalImages demoMsgs = 12 ∧
    maybe_filter_to_n_most_recent_images demoMsgs 5 4 = some demoFiltered ∧
    totalImages demoFiltered = 8 :=
  ⟨⟨by norm_num, by norm_num,
      image_filter_removes_exact_chunked demoMsgs 5 4 (by norm_num) (by norm_num)⟩,
    by decide, by decide, by decide⟩

/-- C10: when the caller passes `only_n_most_recent_images = None` and
prompt caching is enabled, the loop invokes the image filter with keep-count
90 and `min_removal_threshold = 0`, and with a zero threshold the filter
raises `ZeroDivisionError` (modelled as `none`) for every input message
list and keep-count. -/
theorem zero_threshold_filter_crash :
    imageFilterInvocation none true = some (90, 0) ∧
    ∀ (msgs : List Msg) (keep : Int),
      maybe_filter_to_n_most_recent_images msgs keep 0 = none := by
  refine ⟨rfl, ?_⟩
  intro msgs keep
  simp [maybe_filter_to_n_most_recent_images]

/-- C10 witness: the crash evaluated on a concrete message list with the
reachable keep-count 90. -/
theorem zero_threshold_filter_crash_witness :
    maybe_filter_to_n_most_recent_images demoMsgs 90 0 = none :=
  zero_threshold_filter_crash.2 demoMsgs 90

/-- C9: for every sequence of `beat` calls, consecutive issued liveness
writes are at least `min_interval` apart (at most one write per interval),
the written timestamps strictly increase (the heartbeat only moves
forward), and a failing write is swallowed: the tracker's behaviour is
independent of write success, so liveness reporting never aborts the
loop. -/
theorem heartbeat_rate_limited_monotone (hb : HeartbeatTracker)
    (calls : List (Int × Bool)) (hpos : 0 < hb.min_interval) :
    List.Chain' (fun a b => a + hb.min_interval ≤ b) (beatRun hb calls).2 ∧
    List.Chain' (· < ·) (beatRun hb calls).2 ∧
    ∀ (now : Int) (ok ok' : Bool), beat hb now ok = beat hb now ok' := by
  obtain ⟨iv, lb⟩ := hb
  have hpos' : (0:Int) < iv := hpos
  have h := beatRun_spaced iv hpos' calls lb
  refine ⟨h.1, ?_, fun now ok ok' => rfl⟩
  exact List.Chain'.imp (fun a b hab => by omega) h.1

/-- C9 witness: tracker with a 30-second interval beaten at times 40, 50,
75 and 80 (the write at 75 failing) issues exactly the writes at 40 and
75. -/
theorem heartbeat_rate_limited_monotone_witness :
    (0:Int) < 30 ∧
    (beatRun ⟨30, 0⟩ [(40, true), (50, true), (75, false), (80, true)]).2
      = [40, 75] ∧
    (List.Chain' (fun a b => a + (30:Int) ≤ b)
      (beatRun ⟨30, 0⟩ [(40, true), (50, true), (75, false), (80, true)]).2 ∧
     List.Chain' (· < ·)
      (beatRun ⟨30, 0⟩ [(40, true), (50, true), (75, false), (80, true)]).2 ∧
     ∀ (now : Int) (ok ok' : Bool),
       beat ⟨30, 0⟩ now ok = beat ⟨30, 0⟩ now ok') :=
  ⟨by norm_num, by decide,
    heartbeat_rate_limited_monotone ⟨30, 0⟩
      [(40, true), (50, true), (75, false), (80, true)] (by norm_num)⟩

/-- C4: at the top of an iteration the persisted status is read fresh; a
read of "stopping" makes the loop persist exactly one status write —
"cancelled" — and exit, and a read of "pausing" makes it persist exactly
"paused" and exit; in both cases no model API call happens in this or any
later iteration, whatever the rest of the script holds. -/
theorem status_gate_stopping_pausing (cfg : LoopCfg) (st : LoopState)
    (env : IterEnv) (rest : List IterEnv) :
    (env.statusRead = StatusRead.ok "stopping" →
      run cfg st (env :: rest)
        = RunResult.exited { st with final_status := "cancelled" }
            [⟨[("cancelled", "Task cancelled by user.")], false, false⟩]) ∧
    (env.statusRead = StatusRead.ok "pausing" →
      run cfg st (env :: rest)
        = RunResult.exited { st with final_status := "paused" }
            [⟨[("paused", "Task paused by user.")], false, false⟩]) := by
  constructor
  · intro h
    simp [run, iteration, h]
  · intro h
    simp [run, iteration, h]

/-- C4 witness: the stopping and pausing gates evaluated on the demo
state. -/
theorem status_gate_stopping_pausing_witness :
    run cfgNoCache st0 [⟨StatusRead.ok "stopping", [], []⟩]
      = RunResult.exited { st0 with final_status := "cancelled" }
          [⟨[("cancelled", "Task cancelled by user.")], false, false⟩] ∧
    run cfgNoCache st0 [⟨StatusRead.ok "pausing", [], []⟩]
      = RunResult.exited { st0 with final_status := "paused" }
          [⟨[("paused", "Task paused by user.")], false, false⟩] :=
  ⟨(status_gate_stopping_pausing cfgNoCache st0
      ⟨StatusRead.ok "stopping", [], []⟩ []).1 rfl,
   (status_gate_stopping_pausing cfgNoCache st0
      ⟨StatusRead.ok "pausing", [], []⟩ []).2 rfl⟩

/-- C8: when the per-iteration status read raises, the loop persists
"failed" with an error message and exits at once — the one failed read is
not retried, and no model API call happens in this or any later
iteration. -/
theorem status_read_failure_fatal (cfg : LoopCfg) (st : LoopState)
    (env : IterEnv) (rest : List IterEnv)
    (h : env.statusRead = StatusRead.fail) :
    run cfg st (env :: rest)
      = RunResult.exited { st with final_status := "failed" }
          [⟨[("failed", "Internal error during status check")], false,
            false⟩] := by
  simp [run, iteration, h]

/-- C8 witness: the failing status read evaluated on the demo state. -/
theorem status_read_failure_fatal_witness :
    run cfgNoCache st0 [⟨StatusRead.fail, [], []⟩]
      = RunResult.exited { st0 with final_status := "failed" }
          [⟨[("failed", "Internal error during status check")], false,
            false⟩] :=
  status_read_failure_fatal cfgNoCache st0 ⟨StatusRead.fail, [], []⟩ [] rfl

/-- C1: evaluation at the failing input.  A tool invocation returns the
cancellation sentinel (parent status already "cancelled"); the `break` in
the sentinel check exits only the inner for-loop over content blocks, so
the iteration continues — it injects the synthetic log prompt — and the
next iteration performs a further model API call (2 calls in total, one
after the sentinel) and even finishes as "completed", rather than
unwinding immediately with final status "cancelled" as the claim (and the
code's own comment at the `break`) requires. -/
theorem sentinel_cancellation_not_immediate :
    iteration cfgNoCache st0 envSentinel
      = IterResult.continued stAfterSentinel ⟨[], true, false⟩ ∧
    stAfterSentinel.final_status = "cancelled" ∧
    run cfgNoCache st0 [envSentinel, envAfterSentinel]
      = RunResult.exited stC1Final
          [⟨[], true, false⟩,
           ⟨[("completed",
               "Task finished successfully without further tool use.")],
             true, true⟩] ∧
    modelCallCount
        [⟨[], true, false⟩,
         ⟨[("completed",
             "Task finished successfully without further tool use.")],
           true, true⟩] = 2 ∧
    stC1Final.final_status = "completed" := by
  refine ⟨by decide, by decide, by decide, by decide, by decide⟩

lemma noToolUse_single_text (s : String) :
    ∀ b ∈ [Block.text s], ∀ tid n, b ≠ Block.toolUse tid n := by
  intro b hb tid n
  rw [List.mem_singleton] at hb
  subst hb
  exact fun hcon => Block.noConfusion hcon

lemma processBlocks_no_toolUse (bs : List Block) (rs : List ToolRes)
    (h : ∀ b ∈ bs, ∀ tid n, b ≠ Block.toolUse tid n) :
    processBlocks bs rs = ([], false) := by
  induction bs generalizing rs with
  | nil => simp [processBlocks]
  | cons hd tl ih =>
    cases hd with
    | text s =>
      simpa [processBlocks] using
        ih rs (fun b hb => h b (List.mem_cons_of_mem _ hb))
    | toolUse tid n =>
      exact absurd rfl (h _ (List.mem_cons_self _ _) tid n)
    | toolResult c e tid =>
      simpa [processBlocks] using
        ih rs (fun b hb => h b (List.mem_cons_of_mem _ hb))

lemma maybe_filter_isSome (msgs : List Msg) (keep thr : Int)
    (h : thr ≠ 0) :
    (maybe_filter_to_n_most_recent_images msgs keep thr).isSome := by
  simp [maybe_filter_to_n_most_recent_images, h]

lemma imageStage_ok (cfg : LoopCfg) (onlyN : Option Int) (msgs : List Msg)
    (h : ¬(cfg.enable_prompt_caching = true ∧ onlyN.getD 0 = 0)) :
    (imageStage cfg onlyN msgs).1
      = (if cfg.enable_prompt_caching then some 90 else onlyN) ∧
    (imageStage cfg onlyN msgs).2.isSome := by
  cases hc : cfg.enable_prompt_caching with
  | false =>
    cases onlyN with
    | none => simp [imageStage, hc]
    | some k =>
      by_cases hk : k = 0
      · simp [imageStage, hc, hk]
      · simpa [imageStage, hc, hk] using
          maybe_filter_isSome msgs k ((some k).getD 0) (by simpa using hk)
  | true =>
    have hne : onlyN.getD 0 ≠ 0 := fun he => h ⟨hc, he⟩
    simpa [imageStage, hc] using
      maybe_filter_isSome msgs 90 (onlyN.getD 0) hne

/-- C5: a first zero-tool-use iteration (the `prompted_for_log` flag still
unset) injects exactly one synthetic log-prompt user message after the
assistant message and continues; the following zero-tool iteration exits
with exactly one status write, "completed", marks the conversation
completed, and returns.  The status reads are benign, and the image stage
is assumed not to hit the zero-threshold crash (claim C10). -/
theorem zero_tool_completion_protocol (cfg : LoopCfg) (st : LoopState)
    (env env' : IterEnv) (s s' : String)
    (hp : st.prompted_for_log = false)
    (himg : ¬(cfg.enable_prompt_caching = true ∧
      st.only_n_most_recent_images.getD 0 = 0))
    (hs : env.statusRead = StatusRead.ok s)
    (hs1 : s ≠ "stopping") (hs2 : s ≠ "pausing")
    (hz : ∀ b ∈ env.response, ∀ tid n, b ≠ Block.toolUse tid n)
    (hs' : env'.statusRead = StatusRead.ok s')
    (hs1' : s' ≠ "stopping") (hs2' : s' ≠ "pausing")
    (hz' : ∀ b ∈ env'.response, ∀ tid n, b ≠ Block.toolUse tid n) :
    ∃ st1 msgs1,
      iteration cfg st env = IterResult.continued st1 ⟨[], true, false⟩ ∧
      st1.prompted_for_log = true ∧
      st1.messages = msgs1 ++ [⟨"assistant", env.response⟩, LOG_PROMPT_MSG] ∧
      ∃ st2,
        iteration cfg st1 env' = IterResult.exited st2
          ⟨[("completed",
              "Task finished successfully without further tool use.")],
            true, true⟩ ∧
        st2.final_status = "completed" := by
  have hpb := processBlocks_no_toolUse env.response env.toolResults hz
  have hpb' := processBlocks_no_toolUse env'.response env'.toolResults hz'
  have himgStage :=
    imageStage_ok cfg st.only_n_most_recent_images st.messages himg
  obtain ⟨msgs1, hmsgs1⟩ := Option.isSome_iff_exists.mp himgStage.2
  refine ⟨⟨msgs1 ++ [⟨"assistant", env.response⟩, LOG_PROMPT_MSG], true,
      (imageStage cfg st.only_n_most_recent_images st.messages).1,
      st.final_status⟩, msgs1, ?_, rfl, rfl, ?_⟩
  · simp only [iteration, hs]
    rw [if_neg hs1, if_neg hs2]
    simp only [hmsgs1, hpb]
    simp [hp, List.append_assoc]
  · have himg1 : ¬(cfg.enable_prompt_caching = true ∧
        ((imageStage cfg st.only_n_most_recent_images st.messages).1).getD 0
          = 0) := by
      rw [himgStage.1]
      rcases Bool.eq_false_or_eq_true cfg.enable_prompt_caching with hc | hc
      · simp [hc]
      · simp [hc]
    have himgStage' := imageStage_ok cfg
      (imageStage cfg st.only_n_most_recent_images st.messages).1
      (msgs1 ++ [⟨"assistant", env.response⟩, LOG_PROMPT_MSG]) himg1
    obtain ⟨m1', hm1'⟩ := Option.isSome_iff_exists.mp himgStage'.2
    refine ⟨⟨m1' ++ [⟨"assistant", env'.response⟩], true,
        (imageStage cfg
          (imageStage cfg st.only_n_most_recent_images st.messages).1
          (msgs1 ++ [⟨"assistant", env.response⟩, LOG_PROMPT_MSG])).1,
        "completed"⟩, ?_, rfl⟩
    simp only [iteration, hs']
    rw [if_neg hs1', if_neg hs2']
    simp only [hm1', hpb']
    simp

/-- C5 witness: a two-iteration run on the demo state in which the model
answers with plain text both times; the first iteration injects the log
prompt, the second completes. -/
theorem zero_tool_completion_protocol_witness :
    st0.prompted_for_log = false ∧
    (∃ st1 msgs1,
      iteration cfgNoCache st0
          ⟨StatusRead.ok "running", [Block.text "all done"], []⟩
        = IterResult.continued st1 ⟨[], true, false⟩ ∧
      st1.prompted_for_log = true ∧
      st1.messages
        = msgs1 ++ [⟨"assistant", [Block.text "all done"]⟩, LOG_PROMPT_MSG] ∧
      ∃ st2,
        iteration cfgNoCache st1
            ⟨StatusRead.ok "running", [Block.text "memory saved"], []⟩
          = IterResult.exited st2
            ⟨[("completed",
                "Task finished successfully without further tool use.")],
              true, true⟩ ∧
        st2.final_status = "completed") :=
  ⟨rfl,
    zero_tool_completion_protocol cfgNoCache st0
      ⟨StatusRead.ok "running", [Block.text "all done"], []⟩
      ⟨StatusRead.ok "running", [Block.text "memory saved"], []⟩
      "running" "running" rfl (by decide) rfl (by decide) (by decide)
      (noToolUse_single_text "all done") rfl (by decide) (by decide)
      (noToolUse_single_text "memory saved")⟩

/-- C2: refutation by evaluation.  For every timeout budget and every
number of benign poll iterations (parent "running", child still
"running"), the completion wait is still polling: with `timeout_minutes`
never consulted, no number of 5-second sleeps — in particular the ≈ 12
that would exhaust a 1-minute budget, or 100 of them — makes the wait
return the distinguished no-result indication. -/
theorem poll_never_times_out (tm : Int) (cid : Nat) (n : Nat) :
    poll_for_completion tm (some cid)
      (List.replicate n
        ⟨HttpRead.ok "running", HttpRead.ok ("running", none)⟩)
      = none := by
  induction n with
  | zero => rfl
  | succ k ih =>
    simpa [List.replicate_succ, poll_for_completion, poll_iteration,
      childStatusCheck] using ih

/-- C3 counterexample: on the broker-conflict exit path the tool returns
an error result without ever touching the spawn record again — the record
stays at the non-terminal status "spawning". -/
theorem spawn_conflict_leaves_record_nonterminal :
    subagent_call true (some 1) true true 30 envConflict
      = some ⟨{ error := some "session already exists" }, some "spawning"⟩ ∧
    ("spawning" : String) ≠ "completed" ∧
    ("spawning" : String) ≠ "failed" ∧
    ("spawning" : String) ≠ "cancelled" := by
  refine ⟨by decide, by decide, by decide, by decide⟩

/-- C3 (amended): when the store is attached (a Spawn Record is created)
and the call waits for completion, every exit path other than the broker
conflict and the non-201 session-creation failure leaves the record at a
terminal status — "failed" for provisioning, health-check, dispatch
failures and in-flight exceptions, "cancelled" for parent cancellation,
"completed" for a resolved wait.  (The conflict and creation-failure exits
leave it at "spawning", a no-wait spawn exits at "running", and the
source's wait-timeout exit is unreachable.) -/
theorem spawn_exit_paths_terminal (myConv : Option Nat)
    (cleanup : Bool) (tm : Int) (env : CallEnv) (out : CallOut)
    (hc1 : env.createResp ≠ CreateResp.conflict)
    (hc2 : ∀ c, env.createResp ≠ CreateResp.otherError c)
    (hret : subagent_call true myConv true cleanup tm env = some out) :
    out.spawnStatus = some "completed" ∨ out.spawnStatus = some "failed" ∨
      out.spawnStatus = some "cancelled" := by
  have hs := congrArg (Option.map CallOut.spawnStatus) hret
  obtain ⟨cr, pr, ah, dp, ps⟩ := env
  cases cr with
  | raised =>
      simp [subagent_call, updateSpawnStatus] at hs
      rw [hs]
      simp
  | conflict => exact absurd rfl hc1
  | otherError c => exact absurd rfl (hc2 c)
  | created =>
    cases pr with
    | false =>
        simp [subagent_call, updateSpawnStatus] at hs
        rw [hs]
        simp
    | true =>
      cases ah with
      | false =>
          simp [subagent_call, updateSpawnStatus] at hs
          rw [hs]
          simp
      | true =>
        cases dp with
        | raised =>
            simp [subagent_call, updateSpawnStatus] at hs
            rw [hs]
            simp
        | errorResp t =>
            simp [subagent_call, updateSpawnStatus] at hs
            rw [hs]
            simp
        | accepted ch =>
          rcases hpoll : poll_for_completion tm myConv ps with _ | ⟨r, c⟩
          · simp [subagent_call, hpoll] at hret
          · by_cases hr : r = CANCEL_SENTINEL
            · simp [subagent_call, updateSpawnStatus, hpoll, hr] at hs
              rw [hs]
              simp
            · simp [subagent_call, updateSpawnStatus, hpoll, hr] at hs
              rw [hs]
              simp

/-- C3 witness: a successful waited spawn evaluated concretely ends with
the spawn record at the terminal status "completed". -/
theorem spawn_exit_paths_terminal_witness :
    (envHappy.createResp ≠ CreateResp.conflict) ∧
    (∀ c, envHappy.createResp ≠ CreateResp.otherError c) ∧
    subagent_call true (some 1) true true 30 envHappy
      = some ⟨{ output := some "Sub-agent completed: done" },
          some "completed"⟩ ∧
    ((⟨{ output := some "Sub-agent completed: done" },
        some "completed"⟩ : CallOut).spawnStatus = some "completed" ∨
      (⟨{ output := some "Sub-agent completed: done" },
        some "completed"⟩ : CallOut).spawnStatus = some "failed" ∨
      (⟨{ output := some "Sub-agent completed: done" },
        some "completed"⟩ : CallOut).spawnStatus = some "cancelled") :=
  ⟨fun h => CreateResp.noConfusion h,
   fun c h => CreateResp.noConfusion h,
   by decide,
   spawn_exit_paths_terminal (some 1) true 30 envHappy
     ⟨{ output := some "Sub-agent completed: done" }, some "completed"⟩
     (fun h => CreateResp.noConfusion h)
     (fun c h => CreateResp.noConfusion h) (by decide)⟩

/-- C7: (i) in any poll iteration with `my_conversation_id` set, a
successful read of the parent's own status equal to "stopping",
"cancelled" or "paused" makes the iteration cancel the child session
(best-effort) and return the cancellation sentinel, whatever the child's
status would have said; (ii) at the tool level, a waited spawn whose
completion poll resolves to the sentinel returns a tool result whose
output is exactly the sentinel string — not the task result — and (with a
store attached) marks the spawn record "cancelled". -/
theorem parent_cancel_during_wait :
    (∀ (cid : Nat) (s : String) (child : HttpRead (String × Option String)),
      (s = "stopping" ∨ s = "cancelled" ∨ s = "paused") →
      poll_iteration (some cid) ⟨HttpRead.ok s, child⟩
        = PollStep.ret CANCEL_SENTINEL true) ∧
    (∀ (hasStore : Bool) (myConv : Option Nat) (cleanup : Bool) (tm : Int)
      (env : CallEnv) (ch : Nat),
      env.createResp = CreateResp.created → env.podReady = true →
      env.apiHealthy = true → env.dispatch = DispatchResp.accepted ch →
      poll_for_completion tm myConv env.pollScript
        = some (CANCEL_SENTINEL, true) →
      ∃ out, subagent_call hasStore myConv true cleanup tm env = some out ∧
        out.result.output = some CANCEL_SENTINEL ∧
        (hasStore = true → out.spawnStatus = some "cancelled")) := by
  constructor
  · intro cid s child h
    simp only [poll_iteration]
    rw [if_pos h]
  · intro hasStore myConv cleanup tm env ch h1 h2 h3 h4 hpoll
    obtain ⟨cr, pr, ah, dp, ps⟩ := env
    simp only at h1 h2 h3 h4 hpoll
    subst h1 h2 h3 h4
    refine ⟨⟨cancelRes,
        updateSpawnStatus
          (updateSpawnStatus (if hasStore then some "spawning" else none)
            "running") "cancelled"⟩, ?_, rfl, ?_⟩
    · simp [subagent_call, hpoll]
    · intro hstore
      subst hstore
      simp [updateSpawnStatus]

/-- C7 witness: mid-wait the parent's status reads "stopping"; the poll
iteration returns the sentinel with the child cancelled, and the concrete
tool call propagates exactly the sentinel and marks the spawn
"cancelled". -/
theorem parent_cancel_during_wait_witness :
    poll_iteration (some 3)
        ⟨HttpRead.ok "stopping", HttpRead.ok ("running", none)⟩
      = PollStep.ret CANCEL_SENTINEL true ∧
    (∃ out, subagent_call true (some 3) true true 30
        ⟨CreateResp.created, true, true, DispatchResp.accepted 7,
          [⟨HttpRead.ok "stopping", HttpRead.ok ("running", none)⟩]⟩
        = some out ∧
      out.result.output = some CANCEL_SENTINEL ∧
      (true = true → out.spawnStatus = some "cancelled")) :=
  ⟨parent_cancel_during_wait.1 3 "stopping"
      (HttpRead.ok ("running", none)) (Or.inl rfl),
   parent_cancel_during_wait.2 true (some 3) true 30
      ⟨CreateResp.created, true, true, DispatchResp.accepted 7,
        [⟨HttpRead.ok "stopping", HttpRead.ok ("running", none)⟩]⟩ 7
      rfl rfl rfl rfl (by decide)⟩

end CUD
